import Mathlib

/-!
Verification of the event-driven notification pipeline of the
ScholarshipsRouting backend (server/services: event_manager.py,
application_svc.py, tasks.py, pubsub.py).

Python dicts that the code mutates are embedded as association lists in
insertion order (a key occurs at most once in any state reachable from the
initial, empty registries).  Python callables registered as handlers or
callbacks are compared by identity in the source, so they are embedded as
opaque numeric identifiers together with a semantic map giving the effect
of invoking each one.  Dates are embedded as day ordinals (integers);
Python's stdlib date parsing and formatting are abstract parameters.
-/

/-- First value bound to `k`, as Python `d[k]` / `k in d` on a dict. -/
def assocLookup {β : Type} (l : List (String × β)) (k : String) : Option β :=
  match l with
  | [] => none
  | (k2, v) :: rest => if k2 = k then some v else assocLookup rest k

/-- Replace the value of the first entry for `k` (Python `d[k] = v` with `k` present). -/
def assocReplace {β : Type} (l : List (String × β)) (k : String) (v : β) : List (String × β) :=
  match l with
  | [] => []
  | (k2, w) :: rest => if k2 = k then (k2, v) :: rest else (k2, w) :: assocReplace rest k v

/-- Delete the first entry for `k` (Python `del d[k]`). -/
def assocRemove {β : Type} (l : List (String × β)) (k : String) : List (String × β) :=
  match l with
  | [] => []
  | (k2, w) :: rest => if k2 = k then rest else (k2, w) :: assocRemove rest k

/-- Python `d[k] = v` on a dict: replace if present, append if absent. -/
def assocSet {β : Type} (l : List (String × β)) (k : String) (v : β) : List (String × β) :=
  if (assocLookup l k).isSome then assocReplace l k v else l ++ [(k, v)]

/-- `d[k].append(x)` for a dict of lists with `k` present. -/
def assocPush {β : Type} (l : List (String × List β)) (k : String) (x : β) : List (String × List β) :=
  match l with
  | [] => []
  | (k2, xs) :: rest => if k2 = k then (k2, xs ++ [x]) :: rest else (k2, xs) :: assocPush rest k x

/-! ## IdempotencyKeyer — application_svc.generate_idempotent_id (lines 26-29) -/

/-- The pre-hash string `f"{uid}_{app_id}_{type_name}_{target_date}"`. -/
def generate_idempotent_raw (uid app_id type_name target_date : String) : String :=
  uid ++ "_" ++ app_id ++ "_" ++ type_name ++ "_" ++ target_date

/-- `hashlib.md5(raw_str.encode("utf-8")).hexdigest()` applied to the raw
string; the MD5 hex digest itself is an abstract parameter `md5_hex`. -/
def generate_idempotent_id (md5_hex : String → String)
    (uid app_id type_name target_date : String) : String :=
  md5_hex (generate_idempotent_raw uid app_id type_name target_date)

/-! ## Notification rule table — application_svc.NOTIFICATION_RULES and
get_notification_config (lines 13-24).  An entry is (type, title, message
template). -/

def NOTIFICATION_RULES : List (Int × (String × String × String)) :=
  [ (0, ("DEADLINE_TODAY", "Deadline Today!",
      "URGENT: Scholarship \x27{name}\x27 deadline is TODAY ({date}). Submit now!")),
    (1, ("DEADLINE_1_DAY", "1 Day Left",
      "Hurry! Scholarship \x27{name}\x27 ends tomorrow ({date}).")),
    (3, ("DEADLINE_3_DAYS", "3 Days Left",
      "Scholarship \x27{name}\x27 has 3 days left. Deadline: {date}.")),
    (7, ("DEADLINE_7_DAYS", "1 Week Left",
      "Scholarship \x27{name}\x27 has 1 week left. Ends on {date}.")) ]

/-- `NOTIFICATION_RULES.get(days)`. -/
def rulesGet (days : Int) : Option (String × String × String) :=
  match NOTIFICATION_RULES.find? (fun p => p.1 = days) with
  | none => none
  | some p => some p.2

/-- `get_notification_config(days)`: the missed branch for negative days,
otherwise the rules-table lookup (`None` off the thresholds). -/
def get_notification_config (days : Int) : Option (String × String × String) :=
  if days < 0 then
    some ("DEADLINE_MISSED", "Deadline Missed",
      "The scholarship \x22{name}\x22 ended on {date}. Unfortunately, you missed the deadline.")
  else rulesGet days

/-! ## DeadlineScanner — tasks.process_single_application (lines 244-294)
and tasks.check_application_deadlines (lines 210-241). -/

def DAYS_BEFORE_DEADLINE : Int := 3

/-- An application document as read by the scanner (`app.to_dict()` plus `app.id`). -/
structure AppDoc where
  id : String
  apply_date : Option String
  deadline : Option String
  scholarship_name : Option String
deriving Repr, DecidableEq

/-- Python truthiness of an optional string: `None` and `""` are falsy. -/
def truthyStr (o : Option String) : Bool :=
  match o with
  | none => false
  | some s => s ≠ ""

/-- `data.get("apply_date") or data.get("deadline")`: the first operand if
truthy, else the second operand verbatim. -/
def pyOrStr (a b : Option String) : Option String :=
  if truthyStr a then a else b

/-- The target-date string that survives `if not target_date_str: return`. -/
def effectiveTarget (app : AppDoc) : Option String :=
  let t := pyOrStr app.apply_date app.deadline
  if truthyStr t then t else none

/-- Payload of the emitted `DEADLINE_APPROACHING` event (tasks.py lines 273-279). -/
structure DeadlinePayload where
  user_id : String
  application_id : String
  scholarship_name : String
  days_left : Int
  deadline_date : String
deriving Repr, DecidableEq

/-- `process_single_application(uid, app)`.  `parseDate` embeds the
`datetime.fromisoformat` / `strptime` branch as one abstract parser whose
`none` is the `ValueError` that the function catches (it then logs and
returns without raising); `isoDate` embeds `target_date.isoformat()`.
The result is the payload of the single emitted event, or `none` when no
event is emitted. -/
def process_single_application (parseDate : String → Option Int) (isoDate : Int → String)
    (today : Int) (uid : String) (app : AppDoc) : Option DeadlinePayload :=
  match effectiveTarget app with
  | none => none
  | some s =>
    match parseDate s with
    | none => none
    | some target_date =>
      let delta := target_date - today
      if delta ≤ DAYS_BEFORE_DEADLINE then
        some { user_id := uid
               application_id := app.id
               scholarship_name := app.scholarship_name.getD "Unknown"
               days_left := delta
               deadline_date := isoDate target_date }
      else none

/-- Events emitted while scanning one user's applications, in stream order. -/
def scanApps (parseDate : String → Option Int) (isoDate : Int → String)
    (today : Int) (uid : String) : List AppDoc → List DeadlinePayload
  | [] => []
  | app :: rest =>
    match process_single_application parseDate isoDate today uid app with
    | none => scanApps parseDate isoDate today uid rest
    | some p => p :: scanApps parseDate isoDate today uid rest

/-- `check_application_deadlines`: walk every user and every application,
collecting the emitted events and counting processed applications
(`processed_count`). -/
def check_application_deadlines (parseDate : String → Option Int) (isoDate : Int → String)
    (today : Int) : List (String × List AppDoc) → List DeadlinePayload × Nat
  | [] => ([], 0)
  | (uid, apps) :: rest =>
    let r := check_application_deadlines parseDate isoDate today rest
    (scanApps parseDate isoDate today uid apps ++ r.1, apps.length + r.2)

/-! ## EventBus — event_manager.EventManager (lines 7-50).
Handlers are registered Python callables, compared by identity; they are
embedded as numeric identifiers, and a semantic map
`run : Nat → Except String Unit` gives the outcome of invoking each one
(`Except.error` is a raised exception). -/

structure EventManager where
  subscribers : List (String × List Nat)
deriving Repr, DecidableEq

/-- The freshly constructed global `event_bus` (empty registry). -/
def EventManager.init : EventManager := { subscribers := [] }

/-- `subscribe(event_type, handler)`: create the empty list on first use of
the type, then append the handler — no deduplication. -/
def EventManager.subscribe (em : EventManager) (event_type : String) (handler : Nat) :
    EventManager :=
  let subs :=
    if (assocLookup em.subscribers event_type).isSome then em.subscribers
    else em.subscribers ++ [(event_type, [])]
  { subscribers := assocPush subs event_type handler }

/-- The handler list `self._subscribers[event_type]` that `emit` iterates,
empty when the type is unregistered (then `emit` returns before dispatch). -/
def EventManager.handlersOf (em : EventManager) (event_type : String) : List Nat :=
  (assocLookup em.subscribers event_type).getD []

/-- `asyncio.gather(*tasks, return_exceptions=True)`: every task runs, each
outcome (normal return or raised exception) is captured in the result list
in task order, and nothing propagates. -/
def gatherRun (run : Nat → Except String Unit) : List Nat → List (Nat × Except String Unit)
  | [] => []
  | h :: hs => (h, run h) :: gatherRun run hs

/-- `emit(event_type, payload)`: dispatch to all registered handlers.  Each
handler is invoked once; its exception, if any, is captured per-handler by
the gather step.  The value is the list of (handler, outcome) pairs; `emit`
itself always returns normally and leaves the registry unchanged. -/
def EventManager.emit (run : Nat → Except String Unit) (em : EventManager)
    (event_type : String) : List (Nat × Except String Unit) :=
  gatherRun run (em.handlersOf event_type)

/-- Log lines produced by one `emit` call.  The source logs a debug line
when no subscriber exists and an info line before dispatch; its only
`logger.error` guards task *creation* (calling an async handler merely
builds a coroutine and `run_in_executor` merely schedules, so a handler
body that raises is captured by `gather(..., return_exceptions=True)` and
discarded without any log line). -/
def EventManager.emit_log (em : EventManager) (event_type : String) : List String :=
  if (assocLookup em.subscribers event_type).isSome then
    ["INFO: Emitting event: " ++ event_type]
  else
    ["DEBUG: Event " ++ event_type ++ " emitted but no subscribers found."]

/-! ## NotificationMaterializer — application_svc.handle_deadline_approaching
(lines 64-130), steps 4-5: the anti-spam check, the write and the
real-time publish, keyed by the derived idempotent id.

The notifications collection is an association list from document id to
document data; `published` records the real-time publishes in order. -/

structure MatWorld where
  notifications : List (String × String)
  published : List (String × String)
deriving Repr, DecidableEq

def MatWorld.init : MatWorld := { notifications := [], published := [] }

/-- One complete sequential run of the check/write/publish tail of
`handle_deadline_approaching` for derived id `k` and document `data`:
`doc_ref.get().exists` → return if present; otherwise `doc_ref.set(data)`
then `pubsub.publish(...)`. -/
def handle_materialize (k data : String) (w : MatWorld) : MatWorld :=
  if (assocLookup w.notifications k).isSome then w
  else { notifications := assocSet w.notifications k data
         published := w.published ++ [(k, data)] }

/-- `n` sequential invocations of the materializer for the same key. -/
def handle_materialize_iter (k data : String) : Nat → MatWorld → MatWorld
  | 0, w => w
  | n + 1, w => handle_materialize_iter k data n (handle_materialize k data w)

/-- Program counter of one in-flight materialization attempt.  The source
performs the existence check (`doc_ref.get()`, one round trip), the write
(`doc_ref.set(...)`, a second round trip) and the publish as three separate
operations, so a concurrent attempt may interleave between them. -/
structure MatThread where
  pc : Nat
  sawExists : Bool
deriving Repr, DecidableEq

def MatThread.init : MatThread := { pc := 0, sawExists := false }

/-- One atomic step of an attempt: pc 0 performs the read round trip, pc 1
the branch and (if absent was observed) the write round trip, pc 2 the
publish; pc 3 is done. -/
def matStep (k data : String) (w : MatWorld) (t : MatThread) : MatWorld × MatThread :=
  match t.pc with
  | 0 => (w, { pc := 1, sawExists := (assocLookup w.notifications k).isSome })
  | 1 =>
    if t.sawExists then (w, { t with pc := 3 })
    else ({ w with notifications := assocSet w.notifications k data }, { t with pc := 2 })
  | 2 => ({ w with published := w.published ++ [(k, data)] }, { t with pc := 3 })
  | _ => (w, t)

/-- Run two concurrent materialization attempts for the same key under a
schedule: `false` steps the first attempt, `true` the second. -/
def matRunSched (k data : String) :
    List Bool → MatWorld × MatThread × MatThread → MatWorld × MatThread × MatThread
  | [], s => s
  | b :: rest, (w, t0, t1) =>
    if b then
      let r := matStep k data w t1
      matRunSched k data rest (r.1, t0, r.2)
    else
      let r := matStep k data w t0
      matRunSched k data rest (r.1, r.2, t1)

/-! ## ChannelBroker — pubsub.RedisPubSub (pubsub.py).
The process-local state is the `_subscribers` registry (channel → ordered
callback list, callbacks embedded as numeric identifiers), the set of
channels currently subscribed on the async transport `_async_pubsub`
(`transportSubs`, in subscription order), and whether the async client has
been lazily created (`asyncClientUp`, i.e. `_async_client is not None`). -/

structure RedisPubSubState where
  asyncClientUp : Bool
  subscribers : List (String × List Nat)
  transportSubs : List String
deriving Repr, DecidableEq

/-- `RedisPubSub.__init__`: no async resources, empty registry. -/
def RedisPubSubState.init : RedisPubSubState :=
  { asyncClientUp := false, subscribers := [], transportSubs := [] }

/-- `publish(channel, message)` (lines 58-70): serialize, hand to the sync
transport publish primitive, and on any exception (serialization or
transport) log and return 0.  `serialize` embeds `json.dumps`,
`transport_publish` the transport primitive returning the delivered count;
`Except.error` is a raised exception. -/
def RedisPubSub.publish (serialize : String → Except String String)
    (transport_publish : String → String → Except String Nat)
    (channel msg : String) : Nat :=
  match (do
      let s ← serialize msg
      transport_publish channel s : Except String Nat) with
  | Except.ok n => n
  | Except.error _ => 0

/-- Registry/transport mutation of `subscribe(channel, callback)` (lines
98-105) after `_ensure_async` has succeeded: create the empty callback list
and the transport subscription on first use of the channel, then append
the callback. -/
def RedisPubSub.subscribe_core (st : RedisPubSubState) (channel : String) (cb : Nat) :
    RedisPubSubState :=
  if (assocLookup st.subscribers channel).isSome then
    { st with subscribers := assocPush st.subscribers channel cb }
  else
    { st with subscribers := assocPush (st.subscribers ++ [(channel, [])]) channel cb
              transportSubs := st.transportSubs ++ [channel] }

/-- `subscribe(channel, callback)` (lines 89-109) including `_ensure_async`
(lines 43-54): when the async client does not exist yet it is created and
pinged, and a ping failure — a transport connection error — propagates to
the caller uncaught. -/
def RedisPubSub.subscribe (ping : Except String Unit) (st : RedisPubSubState)
    (channel : String) (cb : Nat) : Except String RedisPubSubState :=
  match (if st.asyncClientUp then Except.ok () else ping) with
  | Except.error e => Except.error e
  | Except.ok _ =>
    Except.ok (RedisPubSub.subscribe_core { st with asyncClientUp := true } channel cb)

/-- `unsubscribe(channel, callback)` (lines 111-137).  Unknown channel:
return unchanged.  With a callback: `list.remove` its first occurrence
(`ValueError` suppressed), and when the list becomes empty tear down the
transport subscription and delete the registry entry.  With `none`
(callback omitted): tear down and delete unconditionally. -/
def RedisPubSub.unsubscribe (st : RedisPubSubState) (channel : String) (cb : Option Nat) :
    RedisPubSubState :=
  match assocLookup st.subscribers channel with
  | none => st
  | some cbs =>
    match cb with
    | some c =>
      let cbs2 := cbs.erase c
      if cbs2 = [] then
        { st with subscribers := assocRemove st.subscribers channel
                  transportSubs := st.transportSubs.erase channel }
      else
        { st with subscribers := assocReplace st.subscribers channel cbs2 }
    | none =>
      { st with subscribers := assocRemove st.subscribers channel
                transportSubs := st.transportSubs.erase channel }

/-- `for channel in self._subscribers: await self._async_pubsub.subscribe(channel)`
over a freshly created subscription object. -/
def resubscribeAll : List String → List String → List String
  | [], acc => acc
  | ch :: rest, acc => resubscribeAll rest (acc ++ [ch])

/-- The successful reconnect branch of `_listen` (lines 207-221): close the
old resources, recreate the async client and a fresh subscription object
(no channels), re-subscribe every channel of the registry, and reset
`reconnect_attempts` to 0.  The registry is not touched.  The returned
`Nat` is the new value of the loop-local `reconnect_attempts`. -/
def RedisPubSub.listen_reconnect_success (st : RedisPubSubState) :
    RedisPubSubState × Nat :=
  ({ st with asyncClientUp := true
             transportSubs := resubscribeAll (st.subscribers.map Prod.fst) [] }, 0)

/-- Registry operations issued by the rest of the system: connect-time
subscriptions and disconnect-time unsubscriptions (callback given or
omitted). -/
inductive BrokerOp where
  | sub (channel : String) (cb : Nat)
  | unsub (channel : String) (cb : Option Nat)
deriving Repr, DecidableEq

def runBrokerOp (st : RedisPubSubState) : BrokerOp → RedisPubSubState
  | BrokerOp.sub ch cb => RedisPubSub.subscribe_core st ch cb
  | BrokerOp.unsub ch cb => RedisPubSub.unsubscribe st ch cb

def runBrokerOps : List BrokerOp → RedisPubSubState → RedisPubSubState
  | [], st => st
  | op :: rest, st => runBrokerOps rest (runBrokerOp st op)

/-- Well-formedness of the broker registry: dict keys are unique, and no
channel holds an empty callback list. -/
def BrokerInv (st : RedisPubSubState) : Prop :=
  (st.subscribers.map Prod.fst).Nodup ∧ ∀ p ∈ st.subscribers, p.2 ≠ []

/-! ## Helper lemmas about the dict embedding -/

theorem assocLookup_eq_none {β : Type} {l : List (String × β)} {k : String} :
    assocLookup l k = none ↔ k ∉ l.map Prod.fst := by
  induction l with
  | nil => simp [assocLookup]
  | cons hd tl ih =>
    obtain ⟨k2, v⟩ := hd
    by_cases hk : k2 = k
    · subst hk
      simp [assocLookup]
    · simp only [assocLookup]
      rw [if_neg hk, ih]
      simp only [List.map_cons, List.mem_cons]
      constructor
      · intro h h2
        rcases h2 with h2 | h2
        · exact hk h2.symm
        · exact h h2
      · intro h h2
        exact h (Or.inr h2)

theorem assocLookup_append_of_none {β : Type} {l l2 : List (String × β)} {k : String}
    (h : assocLookup l k = none) : assocLookup (l ++ l2) k = assocLookup l2 k := by
  induction l with
  | nil => simp
  | cons hd tl ih =>
    obtain ⟨k2, v⟩ := hd
    by_cases hk : k2 = k
    · subst hk
      simp [assocLookup] at h
    · simp [assocLookup, hk] at h ⊢
      exact ih h

theorem assocPush_of_absent {β : Type} {l : List (String × List β)} {k : String}
    (h : k ∉ l.map Prod.fst) (xs : List β) (x : β) :
    assocPush (l ++ [(k, xs)]) k x = l ++ [(k, xs ++ [x])] := by
  induction l with
  | nil => simp [assocPush]
  | cons hd tl ih =>
    obtain ⟨k2, v⟩ := hd
    have h1 : ¬ k2 = k := by
      intro he
      exact h (by simp [he])
    have h2 : k ∉ tl.map Prod.fst := by
      intro hm
      exact h (by simp [hm])
    simp only [List.cons_append, assocPush]
    rw [if_neg h1]
    exact congrArg (fun r => (k2, v) :: r) (ih h2)

theorem assocLookup_assocPush_self {β : Type} {l : List (String × List β)} {k : String}
    {xs : List β} (h : assocLookup l k = some xs) (x : β) :
    assocLookup (assocPush l k x) k = some (xs ++ [x]) := by
  induction l with
  | nil => simp [assocLookup] at h
  | cons hd tl ih =>
    obtain ⟨k2, v⟩ := hd
    by_cases hk : k2 = k
    · subst hk
      simp [assocLookup] at h
      simp [assocPush, assocLookup, h]
    · simp [assocLookup, hk] at h
      simp [assocPush, assocLookup, hk, ih h]

theorem mem_assocPush {β : Type} {l : List (String × List β)} {k : String} {x : β}
    {p : String × List β} (h : p ∈ assocPush l k x) :
    p ∈ l ∨ ∃ q, q ∈ l ∧ q.1 = k ∧ p = (q.1, q.2 ++ [x]) := by
  induction l with
  | nil => simp [assocPush] at h
  | cons hd tl ih =>
    obtain ⟨k2, v⟩ := hd
    by_cases hk : k2 = k
    · simp only [assocPush] at h
      rw [if_pos hk] at h
      rcases List.mem_cons.mp h with h | h
      · exact Or.inr ⟨(k2, v), List.mem_cons_self _ _, hk, by simp [h]⟩
      · exact Or.inl (List.mem_cons_of_mem _ h)
    · simp only [assocPush] at h
      rw [if_neg hk] at h
      rcases List.mem_cons.mp h with h | h
      · exact Or.inl (by simp [h])
      · rcases ih h with h2 | ⟨q, hq, hqk, hpq⟩
        · exact Or.inl (List.mem_cons_of_mem _ h2)
        · exact Or.inr ⟨q, List.mem_cons_of_mem _ hq, hqk, hpq⟩

theorem mem_assocRemove {β : Type} {l : List (String × β)} {k : String}
    {p : String × β} (h : p ∈ assocRemove l k) : p ∈ l := by
  induction l with
  | nil => simp [assocRemove] at h
  | cons hd tl ih =>
    obtain ⟨k2, v⟩ := hd
    by_cases hk : k2 = k
    · subst hk
      simp [assocRemove] at h
      exact List.mem_cons_of_mem _ h
    · simp [assocRemove, hk] at h
      rcases h with h | h
      · simp [h]
      · exact List.mem_cons_of_mem _ (ih h)

theorem mem_assocReplace {β : Type} {l : List (String × β)} {k : String} {v : β}
    {p : String × β} (h : p ∈ assocReplace l k v) : p ∈ l ∨ p.2 = v := by
  induction l with
  | nil => simp [assocReplace] at h
  | cons hd tl ih =>
    obtain ⟨k2, w⟩ := hd
    by_cases hk : k2 = k
    · subst hk
      simp [assocReplace] at h
      rcases h with h | h
      · exact Or.inr (by simp [h])
      · exact Or.inl (List.mem_cons_of_mem _ h)
    · simp [assocReplace, hk] at h
      rcases h with h | h
      · exact Or.inl (by simp [h])
      · rcases ih h with h2 | h2
        · exact Or.inl (List.mem_cons_of_mem _ h2)
        · exact Or.inr h2

theorem assocReplace_self {β : Type} {l : List (String × β)} {k : String} {v : β}
    (h : assocLookup l k = some v) : assocReplace l k v = l := by
  induction l with
  | nil => simp [assocReplace]
  | cons hd tl ih =>
    obtain ⟨k2, w⟩ := hd
    by_cases hk : k2 = k
    · subst hk
      simp [assocLookup] at h
      simp [assocReplace, h]
    · simp [assocLookup, hk] at h
      simp [assocReplace, hk, ih h]

theorem assocLookup_assocReplace_self {β : Type} {l : List (String × β)} {k : String}
    {v w : β} (h : assocLookup l k = some w) :
    assocLookup (assocReplace l k v) k = some v := by
  induction l with
  | nil => simp [assocLookup] at h
  | cons hd tl ih =>
    obtain ⟨k2, u⟩ := hd
    by_cases hk : k2 = k
    · subst hk
      simp [assocReplace, assocLookup]
    · simp [assocLookup, hk] at h
      simp [assocReplace, assocLookup, hk, ih h]

theorem assocLookup_assocRemove_self {β : Type} {l : List (String × β)} {k : String}
    (h : (l.map Prod.fst).Nodup) : assocLookup (assocRemove l k) k = none := by
  induction l with
  | nil => simp [assocRemove, assocLookup]
  | cons hd tl ih =>
    obtain ⟨k2, v⟩ := hd
    simp only [List.map_cons, List.nodup_cons] at h
    by_cases hk : k2 = k
    · simp only [assocRemove]
      rw [if_pos hk]
      exact assocLookup_eq_none.mpr (hk ▸ h.1)
    · simp only [assocRemove]
      rw [if_neg hk]
      simp only [assocLookup]
      rw [if_neg hk]
      exact ih h.2

theorem assocRemove_keys_subset {β : Type} {l : List (String × β)} {k a : String}
    (h : a ∈ (assocRemove l k).map Prod.fst) : a ∈ l.map Prod.fst := by
  rcases List.mem_map.mp h with ⟨p, hp, hpa⟩
  exact List.mem_map.mpr ⟨p, mem_assocRemove hp, hpa⟩

theorem assocRemove_keys_nodup {β : Type} {l : List (String × β)} {k : String}
    (h : (l.map Prod.fst).Nodup) : ((assocRemove l k).map Prod.fst).Nodup := by
  induction l with
  | nil => simp [assocRemove]
  | cons hd tl ih =>
    obtain ⟨k2, v⟩ := hd
    simp only [List.map_cons, List.nodup_cons] at h
    by_cases hk : k2 = k
    · simp only [assocRemove]
      rw [if_pos hk]
      exact h.2
    · simp only [assocRemove]
      rw [if_neg hk]
      simp only [List.map_cons, List.nodup_cons]
      exact ⟨fun hm => h.1 (assocRemove_keys_subset hm), ih h.2⟩

theorem assocReplace_keys {β : Type} (l : List (String × β)) (k : String) (v : β) :
    (assocReplace l k v).map Prod.fst = l.map Prod.fst := by
  induction l with
  | nil => simp [assocReplace]
  | cons hd tl ih =>
    obtain ⟨k2, w⟩ := hd
    by_cases hk : k2 = k
    · simp only [assocReplace]
      rw [if_pos hk]
      simp
    · simp only [assocReplace]
      rw [if_neg hk]
      simp only [List.map_cons]
      rw [ih]

theorem assocPush_keys {β : Type} (l : List (String × List β)) (k : String) (x : β) :
    (assocPush l k x).map Prod.fst = l.map Prod.fst := by
  induction l with
  | nil => simp [assocPush]
  | cons hd tl ih =>
    obtain ⟨k2, v⟩ := hd
    by_cases hk : k2 = k
    · simp only [assocPush]
      rw [if_pos hk]
      simp
    · simp only [assocPush]
      rw [if_neg hk]
      simp only [List.map_cons]
      rw [ih]

theorem gatherRun_append (run : Nat → Except String Unit) (l1 l2 : List Nat) :
    gatherRun run (l1 ++ l2) = gatherRun run l1 ++ gatherRun run l2 := by
  induction l1 with
  | nil => simp [gatherRun]
  | cons hd tl ih => simp [gatherRun, ih]

theorem mem_gatherRun (run : Nat → Except String Unit) {l : List Nat} {h : Nat}
    (hm : h ∈ l) : (h, run h) ∈ gatherRun run l := by
  induction l with
  | nil => simp at hm
  | cons hd tl ih =>
    rcases List.mem_cons.mp hm with hm | hm
    · subst hm
      simp [gatherRun]
    · exact List.mem_cons_of_mem _ (ih hm)

theorem gatherRun_length (run : Nat → Except String Unit) (l : List Nat) :
    (gatherRun run l).length = l.length := by
  induction l with
  | nil => rfl
  | cons hd tl ih => simp [gatherRun, ih]

theorem resubscribeAll_eq (l : List String) :
    ∀ acc : List String, resubscribeAll l acc = acc ++ l := by
  induction l with
  | nil => intro acc; simp [resubscribeAll]
  | cons hd tl ih =>
    intro acc
    simp only [resubscribeAll]
    rw [ih]
    simp

theorem scanApps_append (parseDate : String → Option Int) (isoDate : Int → String)
    (today : Int) (uid : String) (l1 l2 : List AppDoc) :
    scanApps parseDate isoDate today uid (l1 ++ l2) =
      scanApps parseDate isoDate today uid l1 ++ scanApps parseDate isoDate today uid l2 := by
  induction l1 with
  | nil => simp [scanApps]
  | cons hd tl ih =>
    simp only [List.cons_append, scanApps]
    cases process_single_application parseDate isoDate today uid hd with
    | none => exact ih
    | some p => simp [ih]

theorem handle_materialize_of_present {k data : String} {w : MatWorld}
    (h : (assocLookup w.notifications k).isSome = true) :
    handle_materialize k data w = w := by
  simp [handle_materialize, h]

theorem handle_materialize_iter_fixed {k data : String} {w : MatWorld}
    (h : (assocLookup w.notifications k).isSome = true) :
    ∀ n, handle_materialize_iter k data n w = w := by
  intro n
  induction n with
  | zero => rfl
  | succ m ih =>
    simp only [handle_materialize_iter]
    rw [handle_materialize_of_present h, ih]

theorem handlersOf_subscribe (em : EventManager) (ty : String) (h : Nat) :
    (em.subscribe ty h).handlersOf ty = em.handlersOf ty ++ [h] := by
  unfold EventManager.subscribe EventManager.handlersOf
  cases hs : assocLookup em.subscribers ty with
  | none =>
    have habs : ty ∉ em.subscribers.map Prod.fst := assocLookup_eq_none.mp hs
    simp only [hs, Option.isSome_none, Bool.false_eq_true, if_false, Option.getD_none]
    rw [assocPush_of_absent habs [] h]
    rw [assocLookup_append_of_none hs]
    simp [assocLookup]
  | some xs =>
    simp only [hs, Option.isSome_some, if_true, Option.getD_some]
    rw [assocLookup_assocPush_self hs h]
    rfl

theorem subscribe_core_inv {st : RedisPubSubState} (hinv : BrokerInv st)
    (ch : String) (cb : Nat) : BrokerInv (RedisPubSub.subscribe_core st ch cb) := by
  obtain ⟨hnd, hne⟩ := hinv
  unfold RedisPubSub.subscribe_core
  cases hs : assocLookup st.subscribers ch with
  | none =>
    have habs : ch ∉ st.subscribers.map Prod.fst := assocLookup_eq_none.mp hs
    simp only [hs, Option.isSome_none, Bool.false_eq_true, if_false]
    rw [assocPush_of_absent habs [] cb]
    constructor
    · simp only [List.map_append, List.map_cons, List.map_nil]
      rw [List.nodup_append]
      refine ⟨hnd, List.nodup_singleton _, ?_⟩
      intro a ha hb
      simp at hb
      subst hb
      exact habs ha
    · intro p hp
      rcases List.mem_append.mp hp with hp | hp
      · exact hne p hp
      · simp at hp
        subst hp
        simp
  | some xs =>
    simp only [hs, Option.isSome_some, if_true]
    constructor
    · simp only
      rw [assocPush_keys]
      exact hnd
    · intro p hp
      rcases mem_assocPush hp with hp | ⟨q, hq, _, hpq⟩
      · exact hne p hp
      · subst hpq
        simp

theorem unsubscribe_inv {st : RedisPubSubState} (hinv : BrokerInv st)
    (ch : String) (cb : Option Nat) : BrokerInv (RedisPubSub.unsubscribe st ch cb) := by
  obtain ⟨hnd, hne⟩ := hinv
  unfold RedisPubSub.unsubscribe
  cases hs : assocLookup st.subscribers ch with
  | none => exact ⟨hnd, hne⟩
  | some cbs =>
    cases cb with
    | some c =>
      by_cases he : cbs.erase c = []
      · simp only [he, if_true]
        exact ⟨assocRemove_keys_nodup hnd, fun p hp => hne p (mem_assocRemove hp)⟩
      · simp only [he, if_false]
        refine ⟨?_, ?_⟩
        · simp only
          rw [assocReplace_keys]
          exact hnd
        · intro p hp
          rcases mem_assocReplace hp with hp | hp
          · exact hne p hp
          · rw [hp]
            exact he
    | none =>
      exact ⟨assocRemove_keys_nodup hnd, fun p hp => hne p (mem_assocRemove hp)⟩

theorem runBrokerOps_inv : ∀ (ops : List BrokerOp) (st : RedisPubSubState),
    BrokerInv st → BrokerInv (runBrokerOps ops st) := by
  intro ops
  induction ops with
  | nil => intro st h; exact h
  | cons op rest ih =>
    intro st h
    simp only [runBrokerOps]
    apply ih
    cases op with
    | sub ch cb => exact subscribe_core_inv h ch cb
    | unsub ch cb => exact unsubscribe_inv h ch cb

theorem brokerInv_init : BrokerInv RedisPubSubState.init := by
  constructor
  · simp [RedisPubSubState.init]
  · intro p hp
    simp [RedisPubSubState.init] at hp

/-! ## Claim theorems -/

/-- C3, counterexample: the underscore-joined encoding is ambiguous.  The
two distinct tuples ("u", "a_DEADLINE", "MISSED", "2025-01-01") and
("u", "a", "DEADLINE_MISSED", "2025-01-01") produce the same pre-hash
string, so they feed the same input to the hash, refuting the claim that
the pre-hash strings of every two distinct tuples differ. -/
theorem C3_raw_collision :
    generate_idempotent_raw "u" "a_DEADLINE" "MISSED" "2025-01-01" =
      generate_idempotent_raw "u" "a" "DEADLINE_MISSED" "2025-01-01" ∧
    ("a_DEADLINE", "MISSED") ≠ ("a", "DEADLINE_MISSED") := by
  constructor
  · rfl
  · decide

/-- C3, amended: the idempotency key function is pure and deterministic —
the id depends only on the delimiter-joined pre-hash string, so any two
tuples with equal encodings (in particular, two identical logical
occurrences) always produce the same id under any hash; the ambiguity of
the underscore delimiter (see the counterexample) means distinct tuples
may share that encoding. -/
theorem C3_id_deterministic :
    ∀ (md5_hex : String → String) (u1 a1 t1 d1 u2 a2 t2 d2 : String),
      generate_idempotent_raw u1 a1 t1 d1 = generate_idempotent_raw u2 a2 t2 d2 →
      generate_idempotent_id md5_hex u1 a1 t1 d1 = generate_idempotent_id md5_hex u2 a2 t2 d2 := by
  intro md5_hex u1 a1 t1 d1 u2 a2 t2 d2 h
  unfold generate_idempotent_id
  rw [h]

/-- Witness for C3: the determinism theorem applied at the colliding pair
(with the identity in place of the hash). -/
theorem C3_id_deterministic_witness :
    generate_idempotent_id (fun s => s) "u" "a_DEADLINE" "MISSED" "2025-01-01" =
      generate_idempotent_id (fun s => s) "u" "a" "DEADLINE_MISSED" "2025-01-01" :=
  C3_id_deterministic (fun s => s) "u" "a_DEADLINE" "MISSED" "2025-01-01"
    "u" "a" "DEADLINE_MISSED" "2025-01-01" rfl

/-- C10: `EventManager.subscribe` appends without deduplication — after
registering the same handler twice for the same event type the registry
holds two entries for it, and every emit of that type invokes the handler
twice (once per entry), whatever outcomes the invocations have. -/
theorem C10_duplicate_subscribe (em : EventManager) (ty : String) (h : Nat)
    (run : Nat → Except String Unit) :
    ((em.subscribe ty h).subscribe ty h).handlersOf ty = em.handlersOf ty ++ [h, h] ∧
    EventManager.emit run ((em.subscribe ty h).subscribe ty h) ty =
      gatherRun run (em.handlersOf ty) ++ [(h, run h), (h, run h)] := by
  have h1 := handlersOf_subscribe em ty h
  have h2 := handlersOf_subscribe (em.subscribe ty h) ty h
  rw [h1] at h2
  constructor
  · rw [h2]
    simp
  · unfold EventManager.emit
    rw [h2]
    rw [show em.handlersOf ty ++ [h] ++ [h] = em.handlersOf ty ++ ([h] ++ [h]) from by simp]
    rw [gatherRun_append]
    rfl

/-- C4, counterexample: with handler 0 (which raises) and handler 1 (which
returns) both subscribed to one event type, `emit` invokes both and
captures the exception per-handler, but produces no error log line: the
only `logger.error` in `emit` guards task creation, and
`asyncio.gather(..., return_exceptions=True)` silently discards the raised
exception.  This refutes the "caught and logged per-handler" conjunct of
the claim; the isolation conjuncts hold (see the amended theorem). -/
theorem C4_raising_handler_not_logged :
    EventManager.emit (fun h => if h = 0 then Except.error "boom" else Except.ok ())
        ((EventManager.init.subscribe "DEADLINE_APPROACHING" 0).subscribe
          "DEADLINE_APPROACHING" 1) "DEADLINE_APPROACHING" =
      [(0, Except.error "boom"), (1, Except.ok ())] ∧
    EventManager.emit_log
        ((EventManager.init.subscribe "DEADLINE_APPROACHING" 0).subscribe
          "DEADLINE_APPROACHING" 1) "DEADLINE_APPROACHING" =
      ["INFO: Emitting event: DEADLINE_APPROACHING"] := by
  constructor
  · rfl
  · rfl

/-- C4, amended: a handler that raises is caught per-handler (its
exception is captured in the gather results rather than logged), every
other handler registered for the type is still invoked, and `emit` returns
to its caller without propagating; since `emit` leaves the registry
untouched, the same holds on every repeated emit of the same type. -/
theorem C4_handlers_isolated (run : Nat → Except String Unit) (em : EventManager)
    (ty : String) :
    (∀ h ∈ em.handlersOf ty, (h, run h) ∈ EventManager.emit run em ty) ∧
    (EventManager.emit run em ty).length = (em.handlersOf ty).length := by
  constructor
  · intro h hm
    exact mem_gatherRun run hm
  · exact gatherRun_length run _

/-- Witness for C4: with handler 0 always raising, co-subscribed handler 1
is still invoked and its outcome recorded. -/
theorem C4_handlers_isolated_witness :
    (1, Except.ok ()) ∈ EventManager.emit
      (fun h => if h = 0 then Except.error "boom" else Except.ok ())
      ((EventManager.init.subscribe "E" 0).subscribe "E" 1) "E" := by
  have hm := (C4_handlers_isolated
    (fun h => if h = 0 then Except.error "boom" else Except.ok ())
    ((EventManager.init.subscribe "E" 0).subscribe "E" 1) "E").1 1 (by decide)
  exact hm

/-- C5, counterexample: a transport connection failure during `subscribe`
IS surfaced to the caller: `subscribe` awaits `_ensure_async`, whose
`ping()` on the lazily created client has no exception handler, so the
connection error propagates.  This refutes the subscribe half of the
claim; the publish half holds (see the amended theorem). -/
theorem C5_subscribe_raises_on_connection_failure :
    RedisPubSub.subscribe (Except.error "ConnectionError") RedisPubSubState.init
      "user.u1.notifications" 0 = Except.error "ConnectionError" := rfl

/-- C5, amended: `publish` never surfaces a failure — a serialization
error or a transport error makes it return a delivered count of 0 instead
of raising, and on success it returns the transport's delivered count;
`subscribe`, by contrast, propagates the connection error raised by the
ping of its lazy client initialization. -/
theorem C5_publish_never_raises :
    (∀ (serialize : String → Except String String)
        (tp : String → String → Except String Nat) (ch msg e : String),
      serialize msg = Except.error e → RedisPubSub.publish serialize tp ch msg = 0) ∧
    (∀ (serialize : String → Except String String)
        (tp : String → String → Except String Nat) (ch msg s e : String),
      serialize msg = Except.ok s → tp ch s = Except.error e →
      RedisPubSub.publish serialize tp ch msg = 0) ∧
    (∀ (serialize : String → Except String String)
        (tp : String → String → Except String Nat) (ch msg s : String) (n : Nat),
      serialize msg = Except.ok s → tp ch s = Except.ok n →
      RedisPubSub.publish serialize tp ch msg = n) ∧
    (∀ (e : String) (st : RedisPubSubState) (ch : String) (cb : Nat),
      st.asyncClientUp = false →
      RedisPubSub.subscribe (Except.error e) st ch cb = Except.error e) := by
  refine ⟨?_, ?_, ?_, ?_⟩
  · intro serialize tp ch msg e hser
    simp [RedisPubSub.publish, hser, Bind.bind, Except.bind]
  · intro serialize tp ch msg s e hser htp
    simp [RedisPubSub.publish, hser, htp, Bind.bind, Except.bind]
  · intro serialize tp ch msg s n hser htp
    simp [RedisPubSub.publish, hser, htp, Bind.bind, Except.bind]
  · intro e st ch cb hup
    simp [RedisPubSub.subscribe, hup]

/-- Witness for C5: a failing transport publish returns 0, and a failing
ping makes `subscribe` return the error. -/
theorem C5_publish_never_raises_witness :
    RedisPubSub.publish (fun m => Except.ok m)
      (fun _ _ => Except.error "ConnectionError") "user.u1.notifications" "m" = 0 ∧
    RedisPubSub.subscribe (Except.error "TimeoutError") RedisPubSubState.init "c" 1 =
      Except.error "TimeoutError" :=
  ⟨C5_publish_never_raises.2.1 (fun m => Except.ok m)
      (fun _ _ => Except.error "ConnectionError") "user.u1.notifications" "m" "m"
      "ConnectionError" rfl rfl,
   C5_publish_never_raises.2.2.2 "TimeoutError" RedisPubSubState.init "c" 1 rfl⟩

/-- C8: the successful reconnect branch of the listener loop re-subscribes
the rebuilt transport subscription to exactly the channels present in the
registry at that moment (in registry order), leaves the registry itself
unchanged, and resets the backoff counter `reconnect_attempts` to its
initial value 0. -/
theorem C8_reconnect_restores_subscriptions (st : RedisPubSubState) :
    (RedisPubSub.listen_reconnect_success st).1.subscribers = st.subscribers ∧
    (RedisPubSub.listen_reconnect_success st).1.transportSubs = st.subscribers.map Prod.fst ∧
    (RedisPubSub.listen_reconnect_success st).2 = 0 := by
  refine ⟨rfl, ?_, rfl⟩
  unfold RedisPubSub.listen_reconnect_success
  simp only
  rw [resubscribeAll_eq]
  simp

/-- C2, counterexample: the scanner compares `delta <= DAYS_BEFORE_DEADLINE`
(a single threshold of 3), not the claimed set {0,1,3,7}.  At delta = 7 it
emits nothing, although the claim requires an approaching event with the
7-day threshold; at delta = 2 it emits an event (days_left = 2), although
the claim requires none. -/
theorem C2_threshold_counterexample :
    process_single_application (fun _ => some 107) (fun _ => "2024-01-08") 100 "u1"
      { id := "a1", apply_date := none, deadline := some "2024-01-08",
        scholarship_name := some "Fulbright" } = none ∧
    (process_single_application (fun _ => some 102) (fun _ => "2024-01-03") 100 "u1"
      { id := "a1", apply_date := none, deadline := some "2024-01-03",
        scholarship_name := some "Fulbright" }).isSome = true := by
  constructor
  · rfl
  · rfl

/-- C2, amended: for every subject with a parseable target date the scanner
emits exactly one `DEADLINE_APPROACHING` event precisely when
`delta = target_date - today <= 3` (this includes every negative delta and
delta = 2, and excludes 4, 5, 6, 7 and above), carrying
`days_left = delta`; the threshold set {0,1,3,7} and the distinct missed
tag live in the materializer's config table, which maps negative days to
`DEADLINE_MISSED`, days 0/1/3/7 to their named threshold types, and every
other non-negative value (so also an emitted delta = 2) to no
notification. -/
theorem C2_scanner_single_threshold :
    (∀ (parseDate : String → Option Int) (isoDate : Int → String) (today : Int)
        (uid : String) (app : AppDoc) (s : String) (d : Int),
      effectiveTarget app = some s → parseDate s = some d →
      (((process_single_application parseDate isoDate today uid app).isSome = true) ↔
        d - today ≤ DAYS_BEFORE_DEADLINE) ∧
      ∀ p, process_single_application parseDate isoDate today uid app = some p →
        p.days_left = d - today) ∧
    (∀ days : Int, days < 0 →
      (get_notification_config days).map (fun c => c.1) = some "DEADLINE_MISSED") ∧
    ((get_notification_config 0).map (fun c => c.1) = some "DEADLINE_TODAY" ∧
     (get_notification_config 1).map (fun c => c.1) = some "DEADLINE_1_DAY" ∧
     (get_notification_config 3).map (fun c => c.1) = some "DEADLINE_3_DAYS" ∧
     (get_notification_config 7).map (fun c => c.1) = some "DEADLINE_7_DAYS") ∧
    (∀ days : Int, 0 ≤ days → days ≠ 0 → days ≠ 1 → days ≠ 3 → days ≠ 7 →
      get_notification_config days = none) := by
  refine ⟨?_, ?_, ?_, ?_⟩
  · intro parseDate isoDate today uid app s d hT hP
    constructor
    · by_cases hle : d - today ≤ DAYS_BEFORE_DEADLINE
      · simp [process_single_application, hT, hP, hle]
      · simp [process_single_application, hT, hP, hle]
    · intro p hp
      by_cases hle : d - today ≤ DAYS_BEFORE_DEADLINE
      · simp [process_single_application, hT, hP, hle] at hp
        rw [← hp]
      · simp [process_single_application, hT, hP, hle] at hp
  · intro days hneg
    simp [get_notification_config, hneg]
  · refine ⟨?_, ?_, ?_, ?_⟩ <;> decide
  · intro days hge hne0 hne1 hne3 hne7
    have hnl : ¬ days < 0 := not_lt.mpr hge
    simp [get_notification_config, hnl, rulesGet, NOTIFICATION_RULES, List.find?,
      Ne.symm hne0, Ne.symm hne1, Ne.symm hne3, Ne.symm hne7]

/-- Witness for C2 (amended): a subject 3 days out does emit. -/
theorem C2_scanner_single_threshold_witness :
    (process_single_application (fun _ => some 103) (fun _ => "2024-01-04") 100 "u1"
      { id := "a1", apply_date := none, deadline := some "2024-01-04",
        scholarship_name := none }).isSome = true := by
  have h := (C2_scanner_single_threshold.1 (fun _ => some 103) (fun _ => "2024-01-04")
    100 "u1"
    { id := "a1", apply_date := none, deadline := some "2024-01-04",
      scholarship_name := none } "2024-01-04" 103 rfl rfl).1
  exact h.mpr (by decide)

/-- C6: a subject whose target date is missing (or falsy) or fails to
parse emits no event — the `ValueError` is caught inside
`process_single_application`, which returns normally — and the enclosing
scan produces exactly the events of the remaining subjects while still
counting the bad record as processed; a single bad record never aborts the
scan. -/
theorem C6_bad_date_skipped :
    ∀ (parseDate : String → Option Int) (isoDate : Int → String) (today : Int)
      (uid : String) (app : AppDoc),
      (effectiveTarget app = none ∨
        ∃ s, effectiveTarget app = some s ∧ parseDate s = none) →
      process_single_application parseDate isoDate today uid app = none ∧
      ∀ (us1 us2 : List (String × List AppDoc)) (apps1 apps2 : List AppDoc),
        (check_application_deadlines parseDate isoDate today
            (us1 ++ (uid, apps1 ++ app :: apps2) :: us2)).1 =
          (check_application_deadlines parseDate isoDate today
            (us1 ++ (uid, apps1 ++ apps2) :: us2)).1 ∧
        (check_application_deadlines parseDate isoDate today
            (us1 ++ (uid, apps1 ++ app :: apps2) :: us2)).2 =
          (check_application_deadlines parseDate isoDate today
            (us1 ++ (uid, apps1 ++ apps2) :: us2)).2 + 1 := by
  intro parseDate isoDate today uid app hbad
  have hnone : process_single_application parseDate isoDate today uid app = none := by
    rcases hbad with h | ⟨s, hs, hp⟩
    · simp [process_single_application, h]
    · simp [process_single_application, hs, hp]
  refine ⟨hnone, ?_⟩
  intro us1 us2 apps1 apps2
  have hscan : ∀ l2 : List AppDoc, ∀ l1 : List AppDoc,
      scanApps parseDate isoDate today uid (l1 ++ app :: l2) =
        scanApps parseDate isoDate today uid (l1 ++ l2) := by
    intro l2 l1
    rw [scanApps_append, scanApps_append]
    have : scanApps parseDate isoDate today uid (app :: l2) =
        scanApps parseDate isoDate today uid l2 := by
      simp [scanApps, hnone]
    rw [this]
  induction us1 with
  | nil =>
    constructor
    · simp only [List.nil_append, check_application_deadlines]
      rw [hscan apps2 apps1]
    · simp only [List.nil_append, check_application_deadlines]
      simp [List.length_append]
      omega
  | cons u us ih =>
    obtain ⟨v, apps⟩ := u
    constructor
    · simp only [List.cons_append, check_application_deadlines, List.append_eq]
      rw [ih.1]
    · simp only [List.cons_append, check_application_deadlines, List.append_eq]
      rw [ih.2]
      omega

/-- Witness for C6: a record whose date string does not parse is skipped
and the surrounding scan result is unchanged except for the count. -/
theorem C6_bad_date_skipped_witness :
    process_single_application (fun _ => none) (fun _ => "") 100 "u1"
      { id := "bad", apply_date := some "garbage", deadline := none,
        scholarship_name := none } = none ∧
    (check_application_deadlines (fun _ => none) (fun _ => "") 100
        [("u1", [{ id := "bad", apply_date := some "garbage", deadline := none,
                   scholarship_name := none }])]).1 =
      (check_application_deadlines (fun _ => none) (fun _ => "") 100 [("u1", [])]).1 := by
  have h := C6_bad_date_skipped (fun _ => none) (fun _ => "") 100 "u1"
    { id := "bad", apply_date := some "garbage", deadline := none, scholarship_name := none }
    (Or.inr ⟨"garbage", rfl, rfl⟩)
  exact ⟨h.1, (h.2 [] [] [] []).1⟩

/-- C1, counterexample: the materializer's existence check
(`doc_ref.get()`) and its write (`doc_ref.set(...)`) are two separate
round trips, not one atomic conditional write.  Under the interleaving
check/check/write/publish/write/publish of two attempts for the same
derived key, both attempts observe "absent", both write, and both publish:
the final state has published twice, refuting the claim that no
interleaving can publish twice (a single record still results, because
both writes target the same key). -/
theorem C1_interleaving_publishes_twice :
    ((matRunSched "k" "data" [false, true, false, true, false, true]
        (MatWorld.init, MatThread.init, MatThread.init)).1.published.length = 2) ∧
    ((matRunSched "k" "data" [false, true, false, true, false, true]
        (MatWorld.init, MatThread.init, MatThread.init)).1.notifications =
      [("k", "data")]) := by
  constructor
  · rfl
  · rfl

/-- C1, amended: running the materializer N >= 1 times sequentially for the
same derived key persists exactly one Notification record under that key
and publishes exactly once — the existence check makes every run after the
first a no-op.  The check and write are two separate round trips, so a
concurrent interleaving of two attempts can publish twice (see the
counterexample), though at most one record ever exists because both writes
target the same derived key. -/
theorem C1_sequential_exactly_once (k data : String) (n : Nat) (h : 1 ≤ n) :
    (handle_materialize_iter k data n MatWorld.init).notifications = [(k, data)] ∧
    (handle_materialize_iter k data n MatWorld.init).published = [(k, data)] := by
  obtain ⟨m, rfl⟩ : ∃ m, n = m + 1 := ⟨n - 1, (Nat.succ_pred_eq_of_pos h).symm⟩
  have h1 : handle_materialize k data MatWorld.init =
      { notifications := [(k, data)], published := [(k, data)] } := by
    simp [handle_materialize, MatWorld.init, assocLookup, assocSet]
  have h2 : (assocLookup ([(k, data)] : List (String × String)) k).isSome = true := by
    simp [assocLookup]
  simp only [handle_materialize_iter]
  rw [h1, handle_materialize_iter_fixed h2 m]
  exact ⟨rfl, rfl⟩

/-- Witness for C1 (amended): three sequential runs leave one record and
one publish. -/
theorem C1_sequential_exactly_once_witness :
    (handle_materialize_iter "k" "data" 3 MatWorld.init).notifications = [("k", "data")] ∧
    (handle_materialize_iter "k" "data" 3 MatWorld.init).published = [("k", "data")] :=
  C1_sequential_exactly_once "k" "data" 3 (by decide)

/-- C7: after any sequence of subscribe/unsubscribe calls starting from
the freshly constructed broker, the registry is a well-formed dict whose
every channel holds a non-empty callback list; and on a channel holding
callback list `cbs`, `unsubscribe(ch, c)` removes exactly the first
occurrence of `c` — when that empties the list the channel entry is
deleted (its lookup becomes `none`) and the transport subscription for
that channel is torn down, otherwise the entry keeps `cbs.erase c` and the
transport subscriptions are untouched. -/
theorem C7_registry_invariant :
    (∀ ops : List BrokerOp, BrokerInv (runBrokerOps ops RedisPubSubState.init)) ∧
    (∀ (st : RedisPubSubState) (ch : String) (c : Nat) (cbs : List Nat),
      assocLookup st.subscribers ch = some cbs →
      (cbs.erase c = [] →
        (RedisPubSub.unsubscribe st ch (some c)).subscribers =
          assocRemove st.subscribers ch ∧
        ((st.subscribers.map Prod.fst).Nodup →
          assocLookup (RedisPubSub.unsubscribe st ch (some c)).subscribers ch = none) ∧
        (RedisPubSub.unsubscribe st ch (some c)).transportSubs =
          st.transportSubs.erase ch) ∧
      (cbs.erase c ≠ [] →
        assocLookup (RedisPubSub.unsubscribe st ch (some c)).subscribers ch =
          some (cbs.erase c) ∧
        (RedisPubSub.unsubscribe st ch (some c)).transportSubs = st.transportSubs)) := by
  constructor
  · intro ops
    exact runBrokerOps_inv ops _ brokerInv_init
  · intro st ch c cbs hlook
    constructor
    · intro he
      refine ⟨?_, ?_, ?_⟩
      · simp [RedisPubSub.unsubscribe, hlook, he]
      · intro hnd
        simp only [RedisPubSub.unsubscribe, hlook, he, if_true]
        exact assocLookup_assocRemove_self hnd
      · simp [RedisPubSub.unsubscribe, hlook, he]
    · intro he
      refine ⟨?_, ?_⟩
      · simp only [RedisPubSub.unsubscribe, hlook, he, if_false]
        exact assocLookup_assocReplace_self hlook
      · simp [RedisPubSub.unsubscribe, hlook, he]

/-- Witness for C7: one subscribe followed by the matching unsubscribe
keeps the invariant, and the unsubscribe of the last callback removes the
channel entry. -/
theorem C7_registry_invariant_witness :
    BrokerInv (runBrokerOps [BrokerOp.sub "user.u1.notifications" 5,
      BrokerOp.unsub "user.u1.notifications" (some 5)] RedisPubSubState.init) ∧
    assocLookup (RedisPubSub.unsubscribe
        { asyncClientUp := true, subscribers := [("c", [5])], transportSubs := ["c"] }
        "c" (some 5)).subscribers "c" = none := by
  constructor
  · exact C7_registry_invariant.1 _
  · exact ((C7_registry_invariant.2
      { asyncClientUp := true, subscribers := [("c", [5])], transportSubs := ["c"] }
      "c" 5 [5] (by decide)).1 (by decide)).2.1 (by decide)

/-- C9: `unsubscribe` on a channel absent from the registry returns the
state entirely unchanged (registry and transport subscriptions included),
whether or not a callback is given; and `unsubscribe` of a callback that
is not registered for an existing (non-empty, per the C7 invariant)
channel is a complete no-op: `list.remove`'s `ValueError` is suppressed
and nothing is removed or torn down. -/
theorem C9_unsubscribe_unknown_noop :
    (∀ (st : RedisPubSubState) (ch : String) (cb : Option Nat),
      assocLookup st.subscribers ch = none → RedisPubSub.unsubscribe st ch cb = st) ∧
    (∀ (st : RedisPubSubState) (ch : String) (c : Nat) (cbs : List Nat),
      assocLookup st.subscribers ch = some cbs → cbs ≠ [] → c ∉ cbs →
      RedisPubSub.unsubscribe st ch (some c) = st) := by
  constructor
  · intro st ch cb h
    simp [RedisPubSub.unsubscribe, h]
  · intro st ch c cbs h hne hnm
    have he : cbs.erase c = cbs := List.erase_of_not_mem hnm
    simp only [RedisPubSub.unsubscribe, h, he, hne, if_false]
    rw [assocReplace_self h]

/-- Witness for C9: a broker with one live channel is unchanged both by an
unsubscribe on an unknown channel and by an unsubscribe of an unknown
callback. -/
theorem C9_unsubscribe_unknown_noop_witness :
    RedisPubSub.unsubscribe
        { asyncClientUp := true, subscribers := [("c", [5])], transportSubs := ["c"] }
        "x" none =
      { asyncClientUp := true, subscribers := [("c", [5])], transportSubs := ["c"] } ∧
    RedisPubSub.unsubscribe
        { asyncClientUp := true, subscribers := [("c", [5])], transportSubs := ["c"] }
        "c" (some 9) =
      { asyncClientUp := true, subscribers := [("c", [5])], transportSubs := ["c"] } :=
  ⟨C9_unsubscribe_unknown_noop.1 _ "x" none (by decide),
   C9_unsubscribe_unknown_noop.2 _ "c" 9 [5] (by decide) (by decide) (by decide)⟩
